import Mathlib

/-!
# smig: schema-migration reconciler

A shallow embedding of `smig.go` and the properties of its reconciliation
(`ComputeUnappliedMigrations`) and application (`MigratePG`) logic.

Go strings are modelled by `String`; equality and the lexicographic order of
well-formed UTF-8 text coincide with the byte-wise ones of Go.
-/

namespace Smig

/-! ## Data model -/

/-- Go struct `Migration`: a file name and the SQL text of that file. -/
structure Migration where
  FileName : String
  Query : String
  deriving DecidableEq, Repr

/-- An argument handed to `fmt.Errorf`: a string for `%s`, a number for `%d`. -/
inductive Arg where
  | s (v : String)
  | d (v : Nat)
  deriving DecidableEq, Repr

/-- A Go `error` value: either built by `fmt.Errorf` from a format string and
its arguments, or produced by an external call (file system, database). -/
inductive GoError where
  | Errorf (format : String) (args : List Arg)
  | other (msg : String)
  deriving DecidableEq, Repr

/-- The format string of the error raised when the database holds more
migrations than the folder. -/
def moreAppliedFormat : String :=
  "The database has more applied migrations than required. Applied %d but required %d"

/-- The format string of the error raised when a required query differs from
the applied one. -/
def differentContentFormat : String :=
  "The content of required migration file `%s` is different from what's been applied to the database from file `%s` as migration number %d. Keep in mind that even a single character discrepancy may cause this error. Please check the file `%s` and the row of the `migrations` table where file_name = '%s' .\n\nRequired query:\n%s\nApplied query:\n%s\n"

/-! ## ComputeUnappliedMigrations -/

/-- The error built at index `i` of the comparison loop. -/
def differentContentError (r a : Migration) (i : Nat) : GoError :=
  .Errorf differentContentFormat
    [.s r.FileName, .s a.FileName, .d i,
     .s r.FileName, .s a.FileName,
     .s r.Query, .s a.Query]

/-- The loop `for i := range appliedMigs` of `ComputeUnappliedMigrations`,
started at index `i` with the elements of both slices from `i` on: it returns
the error of the first index whose queries differ, if there is one. It is only
entered when `appliedMigs` is not longer than `requiredMigs`. -/
def compareLoop : List Migration → List Migration → Nat → Option GoError
  | r :: requiredMigs, a :: appliedMigs, i =>
    if r.Query ≠ a.Query then
      some (differentContentError r a i)
    else
      compareLoop requiredMigs appliedMigs (i + 1)
  | _, _, _ => none

/-- Go `ComputeUnappliedMigrations`: the pair of the returned slice and error. -/
def ComputeUnappliedMigrations (requiredMigs appliedMigs : List Migration) :
    List Migration × Option GoError :=
  if requiredMigs.length < appliedMigs.length then
    ([], some (.Errorf moreAppliedFormat [.d appliedMigs.length, .d requiredMigs.length]))
  else
    match compareLoop requiredMigs appliedMigs 0 with
    | some err => ([], some err)
    | none => (requiredMigs.drop appliedMigs.length, none)

/-! ## Sorting -/

/-- Go `a < b` on strings: the lexicographic order. -/
def stringLess (a b : String) : Bool :=
  decide (a.data < b.data)

/-- Insert `x` into a list ordered by `less`, before the first element that
is not smaller than `x`. -/
def orderedInsertBy {α : Type} (less : α → α → Bool) (x : α) : List α → List α
  | [] => [x]
  | y :: ys => if less y x then y :: orderedInsertBy less x ys else x :: y :: ys

/-- Go `sort.Slice` with the comparison `less`, and likewise SQL `ORDER BY`:
the elements rearranged into ascending order (here by insertion; with
pairwise distinct keys there is only one such arrangement). -/
def sortSlice {α : Type} (less : α → α → Bool) : List α → List α
  | [] => []
  | x :: xs => orderedInsertBy less x (sortSlice less xs)

/-! ## LoadMigrationsFromFolder -/

/-- The file system as seen through `ioutil.ReadDir` (the names of the entries
of a folder), `ioutil.ReadFile` and `filepath.Join`. -/
structure FS where
  ReadDir : String → Except GoError (List String)
  ReadFile : String → Except GoError String
  Join : String → String → String

/-- Go `strings.HasSuffix`. -/
def HasSuffix (s suffix : String) : Bool :=
  suffix.data.isSuffixOf s.data

/-- The loop `for _, file := range files` of `LoadMigrationsFromFolder`, with
the migrations collected so far. -/
def readLoop (fs : FS) (sqlFolderPath : String) :
    List String → List Migration → List Migration × Option GoError
  | [], migrations => (migrations, none)
  | fileName :: files, migrations =>
    if HasSuffix fileName ".sql" then
      match fs.ReadFile (fs.Join sqlFolderPath fileName) with
      | .error err => ([], some err)
      | .ok query => readLoop fs sqlFolderPath files (migrations ++ [⟨fileName, query⟩])
    else
      readLoop fs sqlFolderPath files migrations

/-- Go `LoadMigrationsFromFolder`. -/
def LoadMigrationsFromFolder (fs : FS) (sqlFolderPath : String) :
    List Migration × Option GoError :=
  match fs.ReadDir sqlFolderPath with
  | .error err => ([], some err)
  | .ok files =>
    match readLoop fs sqlFolderPath files [] with
    | (_, some err) => ([], some err)
    | (migrations, none) =>
      (sortSlice (fun a b => stringLess a.FileName b.FileName) migrations, none)

/-! ## The database transaction -/

/-- A row of the table `migrations`: `file_name` is `not null`, `query` is a
`text` column that may hold NULL (`none`). -/
structure Row where
  file_name : String
  query : Option String
  deriving DecidableEq, Repr

/-- The statements `smig.go` sends through the transaction. -/
inductive Stmt where
  /-- The statement `CREATE TABLE IF NOT EXISTS migrations (...)`. -/
  | createTable
  /-- The statement `SELECT file_name, query FROM migrations ORDER BY file_name`. -/
  | selectMigrations
  /-- The text of a migration file, run as it is. -/
  | script (query : String)
  /-- The statement `INSERT INTO migrations (file_name, query) VALUES($1, $2)`. -/
  | insert (file_name query : String)
  deriving DecidableEq, Repr

/-- The transaction `*sql.Tx` as explicit state: the rows of the table
`migrations` in insertion order, every statement sent so far (oldest first),
and the behaviour of the database: `fail calls` is the error, if any, of the
last statement of `calls` when the statements before it are those sent
earlier (a violation of the `unique` constraint on `file_name` is one of the
errors it may report), and `less a b` tells whether `ORDER BY file_name` puts
the name `a` before the name `b`. The statement of the source names no
collation, so that order is the one of the database, not the one of Go.
Migration scripts are taken not to touch the table `migrations`. -/
structure Tx where
  rows : List Row
  calls : List Stmt
  fail : List Stmt → Option GoError
  less : String → String → Bool

/-- Go `tx.Exec`: the statement is recorded; when the database accepts it, an
`INSERT` appends its row. -/
def Tx.Exec (tx : Tx) (stmt : Stmt) : Tx × Option GoError :=
  match tx.fail (tx.calls ++ [stmt]) with
  | some err => ({ tx with calls := tx.calls ++ [stmt] }, some err)
  | none =>
    match stmt with
    | .insert file_name query =>
      ({ tx with calls := tx.calls ++ [stmt], rows := tx.rows ++ [⟨file_name, some query⟩] }, none)
    | _ => ({ tx with calls := tx.calls ++ [stmt] }, none)

/-- Go `tx.Query` of the `SELECT ... ORDER BY file_name` statement: the rows
in ascending order of `file_name`, in the order of the database. -/
def Tx.Query (tx : Tx) : Tx × Except GoError (List Row) :=
  match tx.fail (tx.calls ++ [.selectMigrations]) with
  | some err => ({ tx with calls := tx.calls ++ [.selectMigrations] }, .error err)
  | none =>
    ({ tx with calls := tx.calls ++ [.selectMigrations] },
      .ok (sortSlice (fun a b => tx.less a.file_name b.file_name) tx.rows))

/-- Go `rows.Scan(&mig.FileName, &mig.Query)`: the columns are stored from left
to right, and a NULL cannot be stored into a Go string. -/
def Scan (row : Row) (mig : Migration) : Migration × Option GoError :=
  match row.query with
  | some query => ({ FileName := row.file_name, Query := query }, none)
  | none =>
    ({ FileName := row.file_name, Query := mig.Query },
      some (.other "converting NULL to string is unsupported"))

/-- The loop `for rows.Next()` of `LoadMigrationsFromDB`: `mig` is the one
variable every row is scanned into, and it is appended before the error of
the scan is looked at. The source never calls `rows.Err()`, so the iteration
itself reports nothing. -/
def scanLoop : List Row → Migration → List Migration → List Migration × Option GoError
  | [], _, migs => (migs, none)
  | row :: rows, mig, migs =>
    match Scan row mig with
    | (mig, some err) => (migs ++ [mig], some err)
    | (mig, none) => scanLoop rows mig (migs ++ [mig])

/-- Go `LoadMigrationsFromDB`. -/
def LoadMigrationsFromDB (tx : Tx) : Tx × List Migration × Option GoError :=
  match tx.Query with
  | (tx, .error err) => (tx, [], some err)
  | (tx, .ok rows) =>
    match scanLoop rows { FileName := "", Query := "" } [] with
    | (migs, err) => (tx, migs, err)

/-! ## ApplyMigrationPG and MigratePG -/

/-- Go `ApplyMigrationPG` (the log line left out). -/
def ApplyMigrationPG (tx : Tx) (mig : Migration) : Tx × Option GoError :=
  match tx.Exec (.script mig.Query) with
  | (tx, some err) => (tx, some err)
  | (tx, none) =>
    match tx.Exec (.insert mig.FileName mig.Query) with
    | (tx, some err) => (tx, some err)
    | (tx, none) => (tx, none)

/-- The loop `for _, mig := range unappliedMigs` of `MigratePG`. -/
def applyLoop (tx : Tx) : List Migration → Tx × Option GoError
  | [] => (tx, none)
  | mig :: unappliedMigs =>
    match ApplyMigrationPG tx mig with
    | (tx, some err) => (tx, some err)
    | (tx, none) => applyLoop tx unappliedMigs

/-- Go `MigratePG`: the transaction after the call and the returned error. -/
def MigratePG (fs : FS) (tx : Tx) (sqlFolderPath : String) : Tx × Option GoError :=
  match tx.Exec .createTable with
  | (tx, some err) => (tx, some err)
  | (tx, none) =>
    match LoadMigrationsFromFolder fs sqlFolderPath with
    | (_, some err) => (tx, some err)
    | (requiredMigs, none) =>
      match LoadMigrationsFromDB tx with
      | (tx, _, some err) => (tx, some err)
      | (tx, appliedMigs, none) =>
        match ComputeUnappliedMigrations requiredMigs appliedMigs with
        | (_, some err) => (tx, some err)
        | (unappliedMigs, none) => applyLoop tx unappliedMigs

/-! ## Vocabulary of the statements -/

/-- The row that `ApplyMigrationPG` inserts for a migration. -/
def Row.ofMigration (mig : Migration) : Row :=
  ⟨mig.FileName, some mig.Query⟩

/-- The statements sent when every migration of the list is applied in turn:
for each one its script, then its `INSERT`. -/
def applyStmts : List Migration → List Stmt
  | [] => []
  | mig :: migs => .script mig.Query :: .insert mig.FileName mig.Query :: applyStmts migs

/-- The migration scripts among the statements sent, in order. -/
def scriptsOf : List Stmt → List String
  | [] => []
  | .script query :: calls => query :: scriptsOf calls
  | _ :: calls => scriptsOf calls

/-! ## Example data -/

/-- Two migrations, as the folder `sql` of `exampleFS` holds them. -/
def exampleRequired : List Migration :=
  [⟨"001_init.sql", "CREATE TABLE t(x int);"⟩, ⟨"002_add.sql", "ALTER TABLE t ADD y int;"⟩]

/-- A file system whose folder `sql` holds two migration files and a file
that is not one. -/
def exampleFS : FS where
  ReadDir := fun _ => .ok ["002_add.sql", "README.md", "001_init.sql"]
  ReadFile := fun path =>
    if path = "sql/001_init.sql" then .ok "CREATE TABLE t(x int);"
    else if path = "sql/002_add.sql" then .ok "ALTER TABLE t ADD y int;"
    else .error (.other "is a directory")
  Join := fun dir name => dir ++ "/" ++ name

/-- A transaction on a database that accepts every statement and orders
names as Go does, with the given rows in the table `migrations`. -/
def acceptingTx (rows : List Row) : Tx :=
  { rows := rows, calls := [], fail := fun _ => none, less := stringLess }

/-- A transaction on a database that rejects, with the error `e`, the
statement number `s` it receives and accepts the others. -/
def rejectingTx (rows : List Row) (s : Nat) (e : GoError) : Tx :=
  { rows := rows, calls := [],
    fail := fun calls => if calls.length = s then some e else none,
    less := stringLess }

/-! ## Properties of the comparison loop -/

/-- The loop finds nothing when the queries agree at every common index. -/
theorem compareLoop_eq_none (R A : List Migration) (i : Nat)
    (h : ∀ j (hA : j < A.length) (hR : j < R.length), R[j].Query = A[j].Query) :
    compareLoop R A i = none := by
  induction R generalizing A i with
  | nil => cases A <;> rfl
  | cons r R ih =>
    cases A with
    | nil => rfl
    | cons a A =>
      have h0 : r.Query = a.Query := h 0 (by simp) (by simp)
      simp only [compareLoop, h0, ne_eq, not_true_eq_false, if_false]
      apply ih
      intro j hA hR
      exact h (j + 1) (by simpa using hA) (by simpa using hR)

/-- The loop stops at the first index whose queries differ and builds its
error from the two migrations at that index. -/
theorem compareLoop_first (R A : List Migration) (i k : Nat)
    (hA : k < A.length) (hR : k < R.length)
    (hne : R[k].Query ≠ A[k].Query)
    (hmin : ∀ j (hjA : j < A.length) (hjR : j < R.length), j < k →
      R[j].Query = A[j].Query) :
    compareLoop R A i = some (differentContentError R[k] A[k] (i + k)) := by
  induction R generalizing A i k with
  | nil => simp at hR
  | cons r R ih =>
    cases A with
    | nil => simp at hA
    | cons a A =>
      cases k with
      | zero =>
        have hne0 : r.Query ≠ a.Query := by simpa using hne
        simp [compareLoop, hne0]
      | succ k =>
        have h0 : r.Query = a.Query := by
          simpa using hmin 0 (by simp) (by simp) (Nat.succ_pos k)
        have hA1 : k < A.length := by simpa using hA
        have hR1 : k < R.length := by simpa using hR
        have hne1 : R[k].Query ≠ A[k].Query := by simpa using hne
        have hmin1 : ∀ j (hjA : j < A.length) (hjR : j < R.length), j < k →
            R[j].Query = A[j].Query := by
          intro j hjA hjR hjk
          simpa using hmin (j + 1) (by simpa using hjA) (by simpa using hjR)
            (Nat.succ_lt_succ hjk)
        have := ih A (i + 1) k hA1 hR1 hne1 hmin1
        simp only [compareLoop, h0, ne_eq, not_true_eq_false, if_false, this,
          List.getElem_cons_succ]
        congr 2
        omega

/-- The loop only looks at the queries of the applied migrations. -/
theorem compareLoop_isNone_congr (R A B : List Migration) (i : Nat)
    (h : A.map Migration.Query = B.map Migration.Query) :
    (compareLoop R A i = none ↔ compareLoop R B i = none) := by
  induction R generalizing A B i with
  | nil => cases A <;> cases B <;> simp [compareLoop]
  | cons r R ih =>
    cases A with
    | nil =>
      cases B with
      | nil => simp [compareLoop]
      | cons b B => simp at h
    | cons a A =>
      cases B with
      | nil => simp at h
      | cons b B =>
        simp only [List.map_cons, List.cons.injEq] at h
        obtain ⟨hq, ht⟩ := h
        by_cases hr : r.Query = b.Query
        · simp only [compareLoop, hq, hr, ne_eq, not_true_eq_false, if_false]
          exact ih A B (i + 1) ht
        · simp [compareLoop, hq, hr]

/-! ## Theorems on ComputeUnappliedMigrations -/

/-- When the applied list is not longer than the required list and agrees
with it query by query, the rest of the required list is returned. -/
theorem ComputeUnappliedMigrations_eq_drop (R A : List Migration)
    (hlen : A.length ≤ R.length)
    (hq : ∀ i (hA : i < A.length) (hR : i < R.length), R[i].Query = A[i].Query) :
    ComputeUnappliedMigrations R A = (R.drop A.length, none) := by
  unfold ComputeUnappliedMigrations
  rw [if_neg (by omega), compareLoop_eq_none R A 0 hq]

/-- C1: when the applied list is not longer than the required list and agrees
with it query by query, `ComputeUnappliedMigrations` returns no error and
exactly the required migrations after the first `len(applied)` ones; with
nothing applied it returns all of the required list, and on two empty lists
the empty list. -/
theorem ComputeUnappliedMigrations_applied_matches (R A : List Migration)
    (hlen : A.length ≤ R.length)
    (hq : ∀ i (hA : i < A.length) (hR : i < R.length), R[i].Query = A[i].Query) :
    ComputeUnappliedMigrations R A = (R.drop A.length, none)
      ∧ ComputeUnappliedMigrations R [] = (R, none)
      ∧ ComputeUnappliedMigrations [] [] = ([], none) := by
  refine ⟨ComputeUnappliedMigrations_eq_drop R A hlen hq, ?_, rfl⟩
  · unfold ComputeUnappliedMigrations
    cases R <;> simp [compareLoop]

/-- Witness of C1: one applied migration that matches the first of two
required ones. -/
theorem ComputeUnappliedMigrations_applied_matches_witness :
    ComputeUnappliedMigrations
        [⟨"001_init.sql", "CREATE TABLE t(x int);"⟩, ⟨"002_add.sql", "ALTER TABLE t ADD y int;"⟩]
        [⟨"001_init.sql", "CREATE TABLE t(x int);"⟩]
      = ([⟨"002_add.sql", "ALTER TABLE t ADD y int;"⟩], none) :=
  (ComputeUnappliedMigrations_applied_matches
    [⟨"001_init.sql", "CREATE TABLE t(x int);"⟩, ⟨"002_add.sql", "ALTER TABLE t ADD y int;"⟩]
    [⟨"001_init.sql", "CREATE TABLE t(x int);"⟩]
    (by decide)
    (by
      intro i hA hR
      have hi : i = 0 := by simpa using hA
      subst hi
      rfl)).1

/-- C2: whenever more migrations are applied than required, whatever they
hold, `ComputeUnappliedMigrations` returns the "more applied migrations than
required" error, built from `len(applied)` and `len(required)` in that
order, and an empty slice; that error is never a "different content" error. -/
theorem ComputeUnappliedMigrations_more_applied (R A : List Migration)
    (hlen : R.length < A.length) :
    ComputeUnappliedMigrations R A
        = ([], some (.Errorf moreAppliedFormat [.d A.length, .d R.length]))
      ∧ ∀ r a i, (ComputeUnappliedMigrations R A).2 ≠ some (differentContentError r a i) := by
  have h : ComputeUnappliedMigrations R A
      = ([], some (.Errorf moreAppliedFormat [.d A.length, .d R.length])) := by
    unfold ComputeUnappliedMigrations
    rw [if_pos hlen]
  refine ⟨h, fun r a i => ?_⟩
  rw [h]
  simp [differentContentError]

/-- Witness of C2: two applied migrations against one required migration
whose query also differs. -/
theorem ComputeUnappliedMigrations_more_applied_witness :
    ComputeUnappliedMigrations [⟨"001_init.sql", "CREATE TABLE t(x int);"⟩]
        [⟨"001_init.sql", "CREATE TABLE t(x);"⟩, ⟨"002_add.sql", "ALTER TABLE t ADD y int;"⟩]
      = ([], some (.Errorf moreAppliedFormat [.d 2, .d 1])) :=
  (ComputeUnappliedMigrations_more_applied [⟨"001_init.sql", "CREATE TABLE t(x int);"⟩]
    [⟨"001_init.sql", "CREATE TABLE t(x);"⟩, ⟨"002_add.sql", "ALTER TABLE t ADD y int;"⟩]
    (by decide)).1

/-- C3: when the applied list is not longer than the required list and the
queries differ at some index, `ComputeUnappliedMigrations` returns the
"different content" error for the smallest index whose queries differ,
built from both file names, that index and both queries at that index. -/
theorem ComputeUnappliedMigrations_first_difference (R A : List Migration)
    (hlen : A.length ≤ R.length) (i₀ : Nat) (h₀A : i₀ < A.length) (h₀R : i₀ < R.length)
    (hne₀ : R[i₀].Query ≠ A[i₀].Query) :
    ∃ (i : Nat) (hA : i < A.length) (hR : i < R.length),
      i ≤ i₀ ∧ R[i].Query ≠ A[i].Query
      ∧ (∀ j (hjA : j < A.length) (hjR : j < R.length), j < i → R[j].Query = A[j].Query)
      ∧ ComputeUnappliedMigrations R A
          = ([], some (.Errorf differentContentFormat
              [.s R[i].FileName, .s A[i].FileName, .d i,
               .s R[i].FileName, .s A[i].FileName,
               .s R[i].Query, .s A[i].Query])) := by
  classical
  have hex : ∃ i, ∃ (hA : i < A.length) (hR : i < R.length), R[i].Query ≠ A[i].Query :=
    ⟨i₀, h₀A, h₀R, hne₀⟩
  obtain ⟨hA, hR, hne⟩ := Nat.find_spec hex
  have hmin : ∀ j (hjA : j < A.length) (hjR : j < R.length), j < Nat.find hex →
      R[j].Query = A[j].Query := by
    intro j hjA hjR hj
    by_contra hc
    exact Nat.find_min hex hj ⟨hjA, hjR, hc⟩
  refine ⟨Nat.find hex, hA, hR, Nat.find_min' hex ⟨h₀A, h₀R, hne₀⟩, hne, hmin, ?_⟩
  unfold ComputeUnappliedMigrations
  rw [if_neg (by omega), compareLoop_first R A 0 (Nat.find hex) hA hR hne hmin]
  simp [differentContentError]

/-- Witness of C3: the queries differ at indices 1 and 2; index 1 is reported. -/
theorem ComputeUnappliedMigrations_first_difference_witness :
    ∃ (i : Nat) (hA : i < [(⟨"a", "q0"⟩ : Migration), ⟨"b", "x1"⟩, ⟨"c", "x2"⟩].length)
      (hR : i < [(⟨"1.sql", "q0"⟩ : Migration), ⟨"2.sql", "q1"⟩, ⟨"3.sql", "q2"⟩].length),
      i ≤ 2
      ∧ [(⟨"1.sql", "q0"⟩ : Migration), ⟨"2.sql", "q1"⟩, ⟨"3.sql", "q2"⟩][i].Query
          ≠ [(⟨"a", "q0"⟩ : Migration), ⟨"b", "x1"⟩, ⟨"c", "x2"⟩][i].Query
      ∧ (∀ j (hjA : j < [(⟨"a", "q0"⟩ : Migration), ⟨"b", "x1"⟩, ⟨"c", "x2"⟩].length)
          (hjR : j < [(⟨"1.sql", "q0"⟩ : Migration), ⟨"2.sql", "q1"⟩, ⟨"3.sql", "q2"⟩].length),
          j < i →
          [(⟨"1.sql", "q0"⟩ : Migration), ⟨"2.sql", "q1"⟩, ⟨"3.sql", "q2"⟩][j].Query
            = [(⟨"a", "q0"⟩ : Migration), ⟨"b", "x1"⟩, ⟨"c", "x2"⟩][j].Query)
      ∧ ComputeUnappliedMigrations
            [⟨"1.sql", "q0"⟩, ⟨"2.sql", "q1"⟩, ⟨"3.sql", "q2"⟩]
            [⟨"a", "q0"⟩, ⟨"b", "x1"⟩, ⟨"c", "x2"⟩]
          = ([], some (.Errorf differentContentFormat
              [.s [(⟨"1.sql", "q0"⟩ : Migration), ⟨"2.sql", "q1"⟩, ⟨"3.sql", "q2"⟩][i].FileName,
               .s [(⟨"a", "q0"⟩ : Migration), ⟨"b", "x1"⟩, ⟨"c", "x2"⟩][i].FileName, .d i,
               .s [(⟨"1.sql", "q0"⟩ : Migration), ⟨"2.sql", "q1"⟩, ⟨"3.sql", "q2"⟩][i].FileName,
               .s [(⟨"a", "q0"⟩ : Migration), ⟨"b", "x1"⟩, ⟨"c", "x2"⟩][i].FileName,
               .s [(⟨"1.sql", "q0"⟩ : Migration), ⟨"2.sql", "q1"⟩, ⟨"3.sql", "q2"⟩][i].Query,
               .s [(⟨"a", "q0"⟩ : Migration), ⟨"b", "x1"⟩, ⟨"c", "x2"⟩][i].Query])) :=
  ComputeUnappliedMigrations_first_difference
    [⟨"1.sql", "q0"⟩, ⟨"2.sql", "q1"⟩, ⟨"3.sql", "q2"⟩]
    [⟨"a", "q0"⟩, ⟨"b", "x1"⟩, ⟨"c", "x2"⟩]
    (by decide) 2 (by decide) (by decide) (by decide)

/-- C4: `ComputeUnappliedMigrations` never looks at the file names of the
applied migrations: two applied lists with the same queries at the same
positions give success together or failure together and the same returned
slice; and an applied list whose queries agree with the required ones raises
no error whatever its file names are. -/
theorem ComputeUnappliedMigrations_names_irrelevant (R A B : List Migration)
    (h : A.map Migration.Query = B.map Migration.Query) :
    ((ComputeUnappliedMigrations R A).2 = none ↔ (ComputeUnappliedMigrations R B).2 = none)
      ∧ (ComputeUnappliedMigrations R A).1 = (ComputeUnappliedMigrations R B).1
      ∧ (A.length ≤ R.length →
          (∀ i (hA : i < A.length) (hR : i < R.length), R[i].Query = A[i].Query) →
          (ComputeUnappliedMigrations R A).2 = none) := by
  have hl : A.length = B.length := by simpa using congrArg List.length h
  have hc := compareLoop_isNone_congr R A B 0 h
  refine ⟨?_, ?_, ?_⟩
  · unfold ComputeUnappliedMigrations
    rw [hl]
    by_cases hlt : R.length < B.length
    · simp [hlt]
    · simp only [hlt, if_false]
      cases hA : compareLoop R A 0 <;> cases hB : compareLoop R B 0 <;> simp_all
  · unfold ComputeUnappliedMigrations
    rw [hl]
    by_cases hlt : R.length < B.length
    · simp [hlt]
    · simp only [hlt, if_false]
      cases hA : compareLoop R A 0 <;> cases hB : compareLoop R B 0 <;> simp_all
  · intro hlen hq
    rw [ComputeUnappliedMigrations_eq_drop R A hlen hq]

/-- Witness of C4: the same queries recorded under two different sets of
names, one of them unlike the required names. -/
theorem ComputeUnappliedMigrations_names_irrelevant_witness :
    ((ComputeUnappliedMigrations [⟨"1.sql", "q0"⟩, ⟨"2.sql", "q1"⟩] [⟨"1.sql", "q0"⟩]).2 = none
        ↔ (ComputeUnappliedMigrations [⟨"1.sql", "q0"⟩, ⟨"2.sql", "q1"⟩] [⟨"zzz", "q0"⟩]).2 = none)
      ∧ (ComputeUnappliedMigrations [⟨"1.sql", "q0"⟩, ⟨"2.sql", "q1"⟩] [⟨"1.sql", "q0"⟩]).1
          = (ComputeUnappliedMigrations [⟨"1.sql", "q0"⟩, ⟨"2.sql", "q1"⟩] [⟨"zzz", "q0"⟩]).1
      ∧ (ComputeUnappliedMigrations [⟨"1.sql", "q0"⟩, ⟨"2.sql", "q1"⟩] [⟨"zzz", "q0"⟩]).2 = none :=
  have h := ComputeUnappliedMigrations_names_irrelevant
    [⟨"1.sql", "q0"⟩, ⟨"2.sql", "q1"⟩] [⟨"1.sql", "q0"⟩] [⟨"zzz", "q0"⟩] (by decide)
  ⟨h.1, h.2.1, by decide⟩

/-! ## Properties of sorting -/

/-- The comparison `stringLess` decides the order of strings. -/
theorem stringLess_iff (a b : String) : stringLess a b = true ↔ a < b := by
  simp [stringLess, String.lt_iff_toList_lt]

/-- Inserting keeps every element. -/
theorem orderedInsertBy_perm {α : Type} (less : α → α → Bool) (x : α) (l : List α) :
    (orderedInsertBy less x l).Perm (x :: l) := by
  induction l with
  | nil => exact List.Perm.refl _
  | cons y ys ih =>
    by_cases h : less y x = true
    · simp only [orderedInsertBy, h, if_true]
      exact (List.Perm.cons y ih).trans (List.Perm.swap x y ys)
    · have hf : less y x = false := by simpa using h
      simp only [orderedInsertBy, hf, Bool.false_eq_true, if_false]
      exact List.Perm.refl _

/-- Sorting rearranges: the result holds the same elements, each as often. -/
theorem sortSlice_perm {α : Type} (less : α → α → Bool) (l : List α) :
    (sortSlice less l).Perm l := by
  induction l with
  | nil => exact List.Perm.refl _
  | cons x xs ih =>
    exact (orderedInsertBy_perm less x (sortSlice less xs)).trans (List.Perm.cons x ih)

/-- Inserting into an ascending list gives an ascending list. -/
theorem orderedInsertBy_sorted {α : Type} (less : α → α → Bool) (key : α → String)
    (hless : ∀ a b, less a b = true ↔ key a < key b) (x : α) (l : List α)
    (hl : l.Pairwise (fun a b => key a ≤ key b)) :
    (orderedInsertBy less x l).Pairwise (fun a b => key a ≤ key b) := by
  induction l with
  | nil => simp [orderedInsertBy]
  | cons y ys ih =>
    rw [List.pairwise_cons] at hl
    by_cases h : less y x = true
    · simp only [orderedInsertBy, h, if_true]
      rw [List.pairwise_cons]
      refine ⟨?_, ih hl.2⟩
      intro z hz
      rcases List.mem_cons.mp ((orderedInsertBy_perm less x ys).mem_iff.mp hz) with hzx | hzy
      · subst hzx
        exact le_of_lt ((hless y z).mp h)
      · exact hl.1 z hzy
    · have hxy : key x ≤ key y := not_lt.mp (fun hlt => h ((hless y x).mpr hlt))
      have hf : less y x = false := by simpa using h
      simp only [orderedInsertBy, hf, Bool.false_eq_true, if_false]
      rw [List.pairwise_cons]
      refine ⟨?_, List.pairwise_cons.mpr hl⟩
      intro z hz
      rcases List.mem_cons.mp hz with hzy | hzy
      · subst hzy
        exact hxy
      · exact le_trans hxy (hl.1 z hzy)

/-- The result of sorting is ascending. -/
theorem sortSlice_sorted {α : Type} (less : α → α → Bool) (key : α → String)
    (hless : ∀ a b, less a b = true ↔ key a < key b) (l : List α) :
    (sortSlice less l).Pairwise (fun a b => key a ≤ key b) := by
  induction l with
  | nil => simp [sortSlice]
  | cons x xs ih => exact orderedInsertBy_sorted less key hless x _ ih

/-- With pairwise distinct keys the result of sorting is strictly ascending. -/
theorem sortSlice_strict {α : Type} (less : α → α → Bool) (key : α → String)
    (hless : ∀ a b, less a b = true ↔ key a < key b) (l : List α)
    (hnodup : (l.map key).Nodup) :
    (sortSlice less l).Pairwise (fun a b => key a < key b) := by
  have hs := sortSlice_sorted less key hless l
  have hn : ((sortSlice less l).map key).Nodup :=
    ((sortSlice_perm less l).map key).nodup_iff.mpr hnodup
  have hne : (sortSlice less l).Pairwise (fun a b => key a ≠ key b) := by
    simpa [List.Nodup, List.pairwise_map] using hn
  exact (hs.and hne).imp (fun h => lt_of_le_of_ne h.1 h.2)

/-- An element that nothing of `l₂` comes before is inserted into `s ++ l₂`
within `s`. -/
theorem orderedInsertBy_append {α : Type} (less : α → α → Bool) (x : α) (s l₂ : List α)
    (h : ∀ z ∈ l₂, less z x = false) :
    orderedInsertBy less x (s ++ l₂) = orderedInsertBy less x s ++ l₂ := by
  induction s with
  | nil =>
    cases l₂ with
    | nil => rfl
    | cons y ys =>
      have hn : less y x = false := h y (List.mem_cons_self y ys)
      simp [orderedInsertBy, hn]
  | cons z s ih =>
    by_cases hz : less z x = true
    · simp [orderedInsertBy, hz, ih]
    · simp [orderedInsertBy, hz]

/-- Sorting leaves a list as it is when no element comes before an earlier
one. -/
theorem sortSlice_of_sorted {α : Type} (less : α → α → Bool) (l : List α)
    (hl : l.Pairwise (fun a b => less b a = false)) :
    sortSlice less l = l := by
  induction l with
  | nil => rfl
  | cons x xs ih =>
    rw [List.pairwise_cons] at hl
    simp only [sortSlice, ih hl.2]
    cases xs with
    | nil => rfl
    | cons y ys =>
      have hn : less y x = false := hl.1 y (List.mem_cons_self y ys)
      simp [orderedInsertBy, hn]

/-- Sorting `l₁ ++ l₂`, where no element of `l₂` comes before an earlier one
of `l₂` or before one of `l₁`, sorts `l₁` and leaves `l₂` behind it. -/
theorem sortSlice_append {α : Type} (less : α → α → Bool) (l₁ l₂ : List α)
    (h₂ : l₂.Pairwise (fun a b => less b a = false))
    (h : ∀ a ∈ l₁, ∀ b ∈ l₂, less b a = false) :
    sortSlice less (l₁ ++ l₂) = sortSlice less l₁ ++ l₂ := by
  induction l₁ with
  | nil => simpa [sortSlice] using sortSlice_of_sorted less l₂ h₂
  | cons x xs ih =>
    have ih1 := ih (fun a ha b hb => h a (List.mem_cons_of_mem x ha) b hb)
    show orderedInsertBy less x (sortSlice less (xs ++ l₂))
      = orderedInsertBy less x (sortSlice less xs) ++ l₂
    rw [ih1]
    exact orderedInsertBy_append less x _ l₂
      (fun z hz => h x (List.mem_cons_self x xs) z hz)

/-! ## Properties of ApplyMigrationPG and of the loop of MigratePG -/

/-- When the database rejects the script, `ApplyMigrationPG` returns that
error and has sent nothing else. -/
theorem ApplyMigrationPG_script_fails (tx : Tx) (mig : Migration) (e : GoError)
    (h : tx.fail (tx.calls ++ [.script mig.Query]) = some e) :
    ApplyMigrationPG tx mig
      = ({ tx with calls := tx.calls ++ [.script mig.Query] }, some e) := by
  simp [ApplyMigrationPG, Tx.Exec, h]

/-- When the database accepts the script and rejects the `INSERT`,
`ApplyMigrationPG` returns that error and no row is added. -/
theorem ApplyMigrationPG_insert_fails (tx : Tx) (mig : Migration) (e : GoError)
    (h₁ : tx.fail (tx.calls ++ [.script mig.Query]) = none)
    (h₂ : tx.fail (tx.calls ++ [.script mig.Query, .insert mig.FileName mig.Query]) = some e) :
    ApplyMigrationPG tx mig
      = ({ tx with
            calls := tx.calls ++ [.script mig.Query, .insert mig.FileName mig.Query] },
          some e) := by
  simp [ApplyMigrationPG, Tx.Exec, h₁, h₂]

/-- When the database accepts both statements, `ApplyMigrationPG` succeeds
and the row of the migration is added. -/
theorem ApplyMigrationPG_ok (tx : Tx) (mig : Migration)
    (h₁ : tx.fail (tx.calls ++ [.script mig.Query]) = none)
    (h₂ : tx.fail (tx.calls ++ [.script mig.Query, .insert mig.FileName mig.Query]) = none) :
    ApplyMigrationPG tx mig
      = ({ tx with
            calls := tx.calls ++ [.script mig.Query, .insert mig.FileName mig.Query],
            rows := tx.rows ++ [Row.ofMigration mig] },
          none) := by
  simp [ApplyMigrationPG, Tx.Exec, h₁, h₂, Row.ofMigration]

/-- The number of statements needed to apply a list of migrations. -/
theorem length_applyStmts (P : List Migration) : (applyStmts P).length = 2 * P.length := by
  induction P with
  | nil => rfl
  | cons m ms ih => simp [applyStmts, ih]; omega

/-- When the database accepts every statement, the loop applies every
migration. -/
theorem applyLoop_ok (P : List Migration) (tx : Tx)
    (h : ∀ n, 0 < n → n ≤ 2 * P.length →
      tx.fail (tx.calls ++ (applyStmts P).take n) = none) :
    applyLoop tx P
      = ({ tx with
            calls := tx.calls ++ applyStmts P,
            rows := tx.rows ++ P.map Row.ofMigration },
          none) := by
  induction P generalizing tx with
  | nil => simp [applyLoop, applyStmts]
  | cons m ms ih =>
    have h₁ : tx.fail (tx.calls ++ [.script m.Query]) = none := by
      simpa [applyStmts] using h 1 (by omega) (by simp; omega)
    have h₂ : tx.fail (tx.calls ++ [.script m.Query, .insert m.FileName m.Query]) = none := by
      simpa [applyStmts] using h 2 (by omega) (by simp)
    simp only [applyLoop, ApplyMigrationPG_ok tx m h₁ h₂]
    rw [ih]
    · simp [applyStmts]
    · intro n hn hn2
      have := h (n + 2) (by omega) (by simp; omega)
      simpa [applyStmts] using this

/-- When the statement number `s` is the first one the database rejects, the
loop stops there: it has sent the first `s` statements and added the rows of
the migrations applied before. -/
theorem applyLoop_stops (P : List Migration) (tx : Tx) (s : Nat) (e : GoError)
    (hs : 0 < s) (hs2 : s ≤ 2 * P.length)
    (hok : ∀ n, 0 < n → n < s → tx.fail (tx.calls ++ (applyStmts P).take n) = none)
    (hfail : tx.fail (tx.calls ++ (applyStmts P).take s) = some e) :
    applyLoop tx P
      = ({ tx with
            calls := tx.calls ++ (applyStmts P).take s,
            rows := tx.rows ++ (P.take ((s - 1) / 2)).map Row.ofMigration },
          some e) := by
  induction P generalizing tx s with
  | nil => simp at hs2; omega
  | cons m ms ih =>
    rcases Nat.lt_or_ge s 2 with hlt | hge
    · have hs1 : s = 1 := by omega
      subst hs1
      have h₁ : tx.fail (tx.calls ++ [.script m.Query]) = some e := by
        simpa [applyStmts] using hfail
      simp [applyLoop, ApplyMigrationPG_script_fails tx m e h₁, applyStmts]
    · have h₁ : tx.fail (tx.calls ++ [.script m.Query]) = none := by
        simpa [applyStmts] using hok 1 (by omega) (by omega)
      rcases Nat.eq_or_lt_of_le hge with heq | hgt
      · subst heq
        have h₂ : tx.fail (tx.calls ++ [.script m.Query, .insert m.FileName m.Query])
            = some e := by
          simpa [applyStmts] using hfail
        simp [applyLoop, ApplyMigrationPG_insert_fails tx m e h₁ h₂, applyStmts]
      · have h₂ : tx.fail (tx.calls ++ [.script m.Query, .insert m.FileName m.Query])
            = none := by
          simpa [applyStmts] using hok 2 (by omega) (by omega)
        obtain ⟨t, rfl⟩ : ∃ t, s = t + 2 := ⟨s - 2, by omega⟩
        simp only [applyLoop, ApplyMigrationPG_ok tx m h₁ h₂]
        rw [ih _ t (by omega) (by simp at hs2; omega)]
        · have hdiv : (t + 2 - 1) / 2 = (t - 1) / 2 + 1 := by omega
          rw [hdiv]
          simp [applyStmts]
        · intro n hn hn2
          have := hok (n + 2) (by omega) (by omega)
          simpa [applyStmts] using this
        · simpa [applyStmts] using hfail

/-- When the loop ends without error, every migration was applied. -/
theorem applyLoop_eq_none (P : List Migration) (tx tx' : Tx)
    (h : applyLoop tx P = (tx', none)) :
    tx' = { tx with
            calls := tx.calls ++ applyStmts P,
            rows := tx.rows ++ P.map Row.ofMigration } := by
  induction P generalizing tx with
  | nil =>
    simp only [applyLoop, Prod.mk.injEq, and_true] at h
    simp [applyStmts, ← h]
  | cons m ms ih =>
    cases h₁ : tx.fail (tx.calls ++ [.script m.Query]) with
    | some e =>
      simp [applyLoop, ApplyMigrationPG_script_fails tx m e h₁] at h
    | none =>
      cases h₂ : tx.fail (tx.calls ++ [.script m.Query, .insert m.FileName m.Query]) with
      | some e =>
        simp [applyLoop, ApplyMigrationPG_insert_fails tx m e h₁ h₂] at h
      | none =>
        simp only [applyLoop, ApplyMigrationPG_ok tx m h₁ h₂] at h
        rw [ih _ h]
        simp [applyStmts]

/-! ## Properties of LoadMigrationsFromDB -/

/-- Rows written by `ApplyMigrationPG` are scanned back without error. -/
theorem scanLoop_ofMigration (ms : List Migration) (mig : Migration) (acc : List Migration) :
    scanLoop (ms.map Row.ofMigration) mig acc = (acc ++ ms, none) := by
  induction ms generalizing mig acc with
  | nil => simp [scanLoop]
  | cons m ms ih => simp [scanLoop, Scan, Row.ofMigration, ih]

/-- When the scan loop ends without error, no row held a NULL query and the
migrations collected are those of the rows, in their order. -/
theorem scanLoop_eq_none (rows : List Row) (mig : Migration) (acc migs : List Migration)
    (h : scanLoop rows mig acc = (migs, none)) :
    ∃ ms, migs = acc ++ ms ∧ rows = ms.map Row.ofMigration := by
  induction rows generalizing mig acc with
  | nil =>
    refine ⟨[], ?_, rfl⟩
    simp only [scanLoop, Prod.mk.injEq, and_true] at h
    simp [← h]
  | cons row rows ih =>
    obtain ⟨name, query⟩ := row
    cases query with
    | none => simp [scanLoop, Scan] at h
    | some q =>
      simp only [scanLoop, Scan] at h
      obtain ⟨ms, h1, h2⟩ := ih _ _ h
      exact ⟨⟨name, q⟩ :: ms, by simp [h1], by simp [h2, Row.ofMigration]⟩

/-- The statement `LoadMigrationsFromDB` sends, whatever its outcome. -/
theorem LoadMigrationsFromDB_fst (tx : Tx) :
    (LoadMigrationsFromDB tx).1 = { tx with calls := tx.calls ++ [.selectMigrations] } := by
  unfold LoadMigrationsFromDB Tx.Query
  cases tx.fail (tx.calls ++ [.selectMigrations]) <;> rfl

/-- When `LoadMigrationsFromDB` succeeds, the `SELECT` was accepted and the
migrations returned are the rows of the table in ascending order of
`file_name`. -/
theorem LoadMigrationsFromDB_eq_none (tx : Tx) (A : List Migration)
    (h : (LoadMigrationsFromDB tx).2 = (A, none)) :
    tx.fail (tx.calls ++ [.selectMigrations]) = none
      ∧ sortSlice (fun a b => tx.less a.file_name b.file_name) tx.rows
          = A.map Row.ofMigration := by
  unfold LoadMigrationsFromDB Tx.Query at h
  cases hf : tx.fail (tx.calls ++ [.selectMigrations]) with
  | some e => simp [hf] at h
  | none =>
    refine ⟨rfl, ?_⟩
    simp only [hf] at h
    obtain ⟨ms, h1, h2⟩ := scanLoop_eq_none _ _ [] A (Prod.ext_iff.mpr (by
      constructor
      · exact congrArg Prod.fst h
      · exact congrArg Prod.snd h))
    simp only [List.nil_append] at h1
    rw [h1, h2]

/-- When the `SELECT` is accepted and the sorted rows are those of `A`,
`LoadMigrationsFromDB` returns `A`. -/
theorem LoadMigrationsFromDB_of_rows (tx : Tx) (A : List Migration)
    (hf : tx.fail (tx.calls ++ [.selectMigrations]) = none)
    (hrows : sortSlice (fun a b => tx.less a.file_name b.file_name) tx.rows
      = A.map Row.ofMigration) :
    (LoadMigrationsFromDB tx).2 = (A, none) := by
  unfold LoadMigrationsFromDB Tx.Query
  simp only [hf, hrows, scanLoop_ofMigration, List.nil_append]

/-! ## Properties of the statements sent -/

/-- The scripts of a concatenation of statements. -/
theorem scriptsOf_append (l₁ l₂ : List Stmt) :
    scriptsOf (l₁ ++ l₂) = scriptsOf l₁ ++ scriptsOf l₂ := by
  induction l₁ with
  | nil => rfl
  | cons c l₁ ih => cases c <;> simp [scriptsOf, ih]

/-- The scripts among the statements that apply a list of migrations are the
queries of that list. -/
theorem scriptsOf_applyStmts (P : List Migration) :
    scriptsOf (applyStmts P) = P.map Migration.Query := by
  induction P with
  | nil => rfl
  | cons m ms ih => simp [applyStmts, scriptsOf, ih]

/-- The scripts among the statements sent up to the script or the `INSERT`
of the migration number `k` are the queries of the migrations `0` to `k`. -/
theorem scriptsOf_take_applyStmts (P : List Migration) (k s : Nat) (hk : k < P.length)
    (hs : s = 2 * k + 1 ∨ s = 2 * k + 2) :
    scriptsOf ((applyStmts P).take s) = (P.take (k + 1)).map Migration.Query := by
  induction P generalizing k s with
  | nil => simp at hk
  | cons m ms ih =>
    cases k with
    | zero =>
      rcases hs with rfl | rfl <;> simp [applyStmts, scriptsOf]
    | succ k =>
      have hk1 : k < ms.length := by simpa using hk
      obtain ⟨t, ht, rfl⟩ : ∃ t, (t = 2 * k + 1 ∨ t = 2 * k + 2) ∧ s = t + 2 := by
        rcases hs with rfl | rfl
        · exact ⟨2 * k + 1, Or.inl rfl, by omega⟩
        · exact ⟨2 * k + 2, Or.inr rfl, by omega⟩
      simp [applyStmts, scriptsOf, ih k t hk1 ht]

/-! ## Properties of MigratePG -/

/-- Once the table is created and both loads have succeeded, `MigratePG` is
`ComputeUnappliedMigrations` followed by the loop over its result. -/
theorem MigratePG_after_loads (fs : FS) (tx : Tx) (sqlFolderPath : String)
    (R A : List Migration)
    (hcreate : tx.fail (tx.calls ++ [.createTable]) = none)
    (hfolder : LoadMigrationsFromFolder fs sqlFolderPath = (R, none))
    (hdb : (LoadMigrationsFromDB (tx.Exec .createTable).1).2 = (A, none)) :
    MigratePG fs tx sqlFolderPath
      = match ComputeUnappliedMigrations R A with
        | (_, some err) =>
          ({ tx with calls := tx.calls ++ [.createTable, .selectMigrations] }, some err)
        | (unappliedMigs, none) =>
          applyLoop { tx with calls := tx.calls ++ [.createTable, .selectMigrations] }
            unappliedMigs := by
  have hE : tx.Exec .createTable = ({ tx with calls := tx.calls ++ [.createTable] }, none) := by
    simp [Tx.Exec, hcreate]
  rw [hE] at hdb
  have hL : LoadMigrationsFromDB { tx with calls := tx.calls ++ [.createTable] }
      = ({ tx with calls := tx.calls ++ [.createTable, .selectMigrations] }, A, none) := by
    apply Prod.ext
    · rw [LoadMigrationsFromDB_fst]; simp
    · exact hdb
  unfold MigratePG
  rw [hE]
  simp only [hfolder, hL]

/-- C5: when the table creation, both loads and every statement of the
pending migrations succeed and the ledger agrees with the required list query
by query, `MigratePG` returns no error; after the table creation and the
`SELECT` it has sent, for each migration of `R[len(A):]` in order, its script
and then its `INSERT`, so the scripts run are the queries of `R[len(A):]`
and the rows added are its (FileName, Query) pairs; on an empty ledger the
final ledger is `R`. -/
theorem MigratePG_applies_pending (fs : FS) (tx : Tx) (sqlFolderPath : String)
    (R A : List Migration)
    (hcreate : tx.fail (tx.calls ++ [.createTable]) = none)
    (hfolder : LoadMigrationsFromFolder fs sqlFolderPath = (R, none))
    (hdb : (LoadMigrationsFromDB (tx.Exec .createTable).1).2 = (A, none))
    (hlen : A.length ≤ R.length)
    (hq : ∀ i (hA : i < A.length) (hR : i < R.length), R[i].Query = A[i].Query)
    (hsteps : ∀ n, 0 < n → n ≤ 2 * (R.drop A.length).length →
      tx.fail (tx.calls ++ .createTable :: .selectMigrations ::
        (applyStmts (R.drop A.length)).take n) = none) :
    (MigratePG fs tx sqlFolderPath).2 = none
      ∧ (MigratePG fs tx sqlFolderPath).1.calls
          = tx.calls ++ .createTable :: .selectMigrations :: applyStmts (R.drop A.length)
      ∧ scriptsOf (MigratePG fs tx sqlFolderPath).1.calls
          = scriptsOf tx.calls ++ (R.drop A.length).map Migration.Query
      ∧ (MigratePG fs tx sqlFolderPath).1.rows
          = tx.rows ++ (R.drop A.length).map Row.ofMigration
      ∧ (tx.rows = [] → (MigratePG fs tx sqlFolderPath).1.rows = R.map Row.ofMigration) := by
  have hM := MigratePG_after_loads fs tx sqlFolderPath R A hcreate hfolder hdb
  rw [ComputeUnappliedMigrations_eq_drop R A hlen hq] at hM
  simp only at hM
  rw [applyLoop_ok] at hM
  · have hcalls : (MigratePG fs tx sqlFolderPath).1.calls
        = tx.calls ++ .createTable :: .selectMigrations :: applyStmts (R.drop A.length) := by
      rw [hM]; simp
    have hrows : (MigratePG fs tx sqlFolderPath).1.rows
        = tx.rows ++ (R.drop A.length).map Row.ofMigration := by
      rw [hM]
    refine ⟨by rw [hM], hcalls, ?_, hrows, ?_⟩
    · rw [hcalls, scriptsOf_append]
      simp [scriptsOf, scriptsOf_applyStmts]
    · intro hempty
      have hE : tx.Exec .createTable = ({ tx with calls := tx.calls ++ [.createTable] }, none) := by
        simp [Tx.Exec, hcreate]
      rw [hE] at hdb
      have hA := (LoadMigrationsFromDB_eq_none _ A hdb).2
      simp only [hempty, sortSlice] at hA
      have hA0 : A = [] := by
        cases A with
        | nil => rfl
        | cons a A => simp at hA
      rw [hrows, hempty, hA0]
      simp
  · intro n hn hn2
    have := hsteps n hn hn2
    simpa using this

/-- Witness of C5: the two end-to-end runs on the example folder, first on an
empty ledger, then on a ledger that holds the first migration. -/
theorem MigratePG_applies_pending_witness :
    ((MigratePG exampleFS (acceptingTx []) "sql").2 = none
      ∧ (MigratePG exampleFS (acceptingTx []) "sql").1.calls
          = [.createTable, .selectMigrations,
             .script "CREATE TABLE t(x int);",
             .insert "001_init.sql" "CREATE TABLE t(x int);",
             .script "ALTER TABLE t ADD y int;",
             .insert "002_add.sql" "ALTER TABLE t ADD y int;"]
      ∧ (MigratePG exampleFS (acceptingTx []) "sql").1.rows
          = [⟨"001_init.sql", some "CREATE TABLE t(x int);"⟩,
             ⟨"002_add.sql", some "ALTER TABLE t ADD y int;"⟩])
    ∧ ((MigratePG exampleFS
          (acceptingTx [⟨"001_init.sql", some "CREATE TABLE t(x int);"⟩]) "sql").2 = none
      ∧ scriptsOf (MigratePG exampleFS
          (acceptingTx [⟨"001_init.sql", some "CREATE TABLE t(x int);"⟩]) "sql").1.calls
          = ["ALTER TABLE t ADD y int;"]
      ∧ (MigratePG exampleFS
          (acceptingTx [⟨"001_init.sql", some "CREATE TABLE t(x int);"⟩]) "sql").1.rows
          = [⟨"001_init.sql", some "CREATE TABLE t(x int);"⟩,
             ⟨"002_add.sql", some "ALTER TABLE t ADD y int;"⟩]) :=
  have h₁ := MigratePG_applies_pending exampleFS (acceptingTx []) "sql" exampleRequired []
    rfl (by decide) (by decide) (by decide) (by intro i hA; simp at hA) (fun _ _ _ => rfl)
  have h₂ := MigratePG_applies_pending exampleFS
    (acceptingTx [⟨"001_init.sql", some "CREATE TABLE t(x int);"⟩]) "sql" exampleRequired
    [⟨"001_init.sql", "CREATE TABLE t(x int);"⟩]
    rfl (by decide) (by decide) (by decide)
    (by
      intro i hA hR
      have hi : i = 0 := by simpa using hA
      subst hi
      rfl)
    (fun _ _ _ => rfl)
  ⟨⟨h₁.1, h₁.2.1, h₁.2.2.2.1⟩, ⟨h₂.1, h₂.2.2.1, h₂.2.2.2.1⟩⟩

/-- C6: when the table creation and both loads succeed and
`ComputeUnappliedMigrations` fails on the loaded lists, `MigratePG` returns
that very error, has sent no statement after the `SELECT` (so no migration
script and no `INSERT`) and has left the rows of the ledger as they were. -/
theorem MigratePG_returns_reconcile_error (fs : FS) (tx : Tx) (sqlFolderPath : String)
    (R A : List Migration) (err : GoError)
    (hcreate : tx.fail (tx.calls ++ [.createTable]) = none)
    (hfolder : LoadMigrationsFromFolder fs sqlFolderPath = (R, none))
    (hdb : (LoadMigrationsFromDB (tx.Exec .createTable).1).2 = (A, none))
    (herr : (ComputeUnappliedMigrations R A).2 = some err) :
    (MigratePG fs tx sqlFolderPath).2 = some err
      ∧ (MigratePG fs tx sqlFolderPath).1.calls
          = tx.calls ++ [.createTable, .selectMigrations]
      ∧ scriptsOf (MigratePG fs tx sqlFolderPath).1.calls = scriptsOf tx.calls
      ∧ (MigratePG fs tx sqlFolderPath).1.rows = tx.rows := by
  have hM := MigratePG_after_loads fs tx sqlFolderPath R A hcreate hfolder hdb
  have hC : ComputeUnappliedMigrations R A = ((ComputeUnappliedMigrations R A).1, some err) :=
    Prod.ext rfl herr
  rw [hC] at hM
  simp only at hM
  refine ⟨by rw [hM], by rw [hM], ?_, by rw [hM]⟩
  rw [hM, scriptsOf_append]
  simp [scriptsOf]

/-- Witness of C6: the ledger holds `CREATE TABLE t(x);` for `001_init.sql`
while the file holds `CREATE TABLE t(x int);`: the error is the one of index
0, no script is run and the ledger is unchanged. -/
theorem MigratePG_returns_reconcile_error_witness :
    (MigratePG exampleFS (acceptingTx [⟨"001_init.sql", some "CREATE TABLE t(x);"⟩]) "sql").2
        = some (.Errorf differentContentFormat
            [.s "001_init.sql", .s "001_init.sql", .d 0,
             .s "001_init.sql", .s "001_init.sql",
             .s "CREATE TABLE t(x int);", .s "CREATE TABLE t(x);"])
      ∧ (MigratePG exampleFS
          (acceptingTx [⟨"001_init.sql", some "CREATE TABLE t(x);"⟩]) "sql").1.calls
          = [.createTable, .selectMigrations]
      ∧ scriptsOf (MigratePG exampleFS
          (acceptingTx [⟨"001_init.sql", some "CREATE TABLE t(x);"⟩]) "sql").1.calls = []
      ∧ (MigratePG exampleFS
          (acceptingTx [⟨"001_init.sql", some "CREATE TABLE t(x);"⟩]) "sql").1.rows
          = [⟨"001_init.sql", some "CREATE TABLE t(x);"⟩] :=
  MigratePG_returns_reconcile_error exampleFS
    (acceptingTx [⟨"001_init.sql", some "CREATE TABLE t(x);"⟩]) "sql" exampleRequired
    [⟨"001_init.sql", "CREATE TABLE t(x);"⟩] _ rfl (by decide) (by decide) rfl

/-- C7: when the ledger agrees with the required list and, among the
statements that apply the pending migrations `P = R[len(A):]`, the first one
the database rejects is the script (`s = 2k+1`) or the `INSERT` (`s = 2k+2`)
of `P[k]`, `MigratePG` returns that error; it has sent exactly the
statements up to the rejected one, so the scripts run are the queries of
`P[0..k]` in order, the rows added are those of `P[0..k-1]`, and nothing of
`P[k+1..]` is run or added. -/
theorem MigratePG_stops_at_first_failure (fs : FS) (tx : Tx) (sqlFolderPath : String)
    (R A : List Migration) (k s : Nat) (e : GoError)
    (hcreate : tx.fail (tx.calls ++ [.createTable]) = none)
    (hfolder : LoadMigrationsFromFolder fs sqlFolderPath = (R, none))
    (hdb : (LoadMigrationsFromDB (tx.Exec .createTable).1).2 = (A, none))
    (hlen : A.length ≤ R.length)
    (hq : ∀ i (hA : i < A.length) (hR : i < R.length), R[i].Query = A[i].Query)
    (hk : k < (R.drop A.length).length)
    (hs : s = 2 * k + 1 ∨ s = 2 * k + 2)
    (hok : ∀ n, 0 < n → n < s →
      tx.fail (tx.calls ++ .createTable :: .selectMigrations ::
        (applyStmts (R.drop A.length)).take n) = none)
    (hfail : tx.fail (tx.calls ++ .createTable :: .selectMigrations ::
        (applyStmts (R.drop A.length)).take s) = some e) :
    (MigratePG fs tx sqlFolderPath).2 = some e
      ∧ (MigratePG fs tx sqlFolderPath).1.calls
          = tx.calls ++ .createTable :: .selectMigrations ::
              (applyStmts (R.drop A.length)).take s
      ∧ scriptsOf (MigratePG fs tx sqlFolderPath).1.calls
          = scriptsOf tx.calls ++ ((R.drop A.length).take (k + 1)).map Migration.Query
      ∧ (MigratePG fs tx sqlFolderPath).1.rows
          = tx.rows ++ ((R.drop A.length).take k).map Row.ofMigration := by
  have hM := MigratePG_after_loads fs tx sqlFolderPath R A hcreate hfolder hdb
  rw [ComputeUnappliedMigrations_eq_drop R A hlen hq] at hM
  simp only at hM
  rw [applyLoop_stops (R.drop A.length) _ s e (by omega) (by omega)] at hM
  · have hdiv : (s - 1) / 2 = k := by omega
    have hcalls : (MigratePG fs tx sqlFolderPath).1.calls
        = tx.calls ++ .createTable :: .selectMigrations ::
            (applyStmts (R.drop A.length)).take s := by
      rw [hM]; simp
    refine ⟨by rw [hM], hcalls, ?_, by rw [hM, hdiv]⟩
    rw [hcalls, scriptsOf_append]
    simp [scriptsOf, scriptsOf_take_applyStmts (R.drop A.length) k s hk hs]
  · intro n hn hn2
    have := hok n hn hn2
    simpa using this
  · simpa using hfail

/-- Witness of C7: on an empty ledger the database rejects the fourth
statement, the `INSERT` of the first of the two pending migrations: its
script was run, no row was added and the second migration was not touched. -/
theorem MigratePG_stops_at_first_failure_witness :
    (MigratePG exampleFS (rejectingTx [] 4 (.other "connection lost")) "sql").2
        = some (.other "connection lost")
      ∧ (MigratePG exampleFS (rejectingTx [] 4 (.other "connection lost")) "sql").1.calls
          = [.createTable, .selectMigrations,
             .script "CREATE TABLE t(x int);",
             .insert "001_init.sql" "CREATE TABLE t(x int);"]
      ∧ scriptsOf
          (MigratePG exampleFS (rejectingTx [] 4 (.other "connection lost")) "sql").1.calls
          = ["CREATE TABLE t(x int);"]
      ∧ (MigratePG exampleFS (rejectingTx [] 4 (.other "connection lost")) "sql").1.rows
          = [] :=
  MigratePG_stops_at_first_failure exampleFS (rejectingTx [] 4 (.other "connection lost"))
    "sql" exampleRequired [] 0 2 (.other "connection lost")
    rfl (by decide) (by decide) (by decide) (by intro i hA; simp at hA) (by decide)
    (by decide)
    (by
      intro n h0 h2
      have hn : n = 1 := by omega
      subst hn
      rfl)
    rfl

/-- Counterexample to C8: for the one migration `002_add.sql` and the one
underlying error, a database that rejects the script and a database that
accepts the script and rejects the `INSERT` make `ApplyMigrationPG` return
the same error, which is the underlying error itself: it names neither the
migration nor the step. The same holds for `MigratePG`, and for a migration
of another name. -/
theorem ApplyMigrationPG_error_hides_step :
    (rejectingTx [] 1 (.other "connection lost")).fail
        [.script "ALTER TABLE t ADD y int;"] = some (.other "connection lost")
      ∧ (rejectingTx [] 2 (.other "connection lost")).fail
        [.script "ALTER TABLE t ADD y int;"] = none
      ∧ (rejectingTx [] 2 (.other "connection lost")).fail
        [.script "ALTER TABLE t ADD y int;",
         .insert "002_add.sql" "ALTER TABLE t ADD y int;"] = some (.other "connection lost")
      ∧ (ApplyMigrationPG (rejectingTx [] 1 (.other "connection lost"))
          ⟨"002_add.sql", "ALTER TABLE t ADD y int;"⟩).2
        = (ApplyMigrationPG (rejectingTx [] 2 (.other "connection lost"))
          ⟨"002_add.sql", "ALTER TABLE t ADD y int;"⟩).2
      ∧ (ApplyMigrationPG (rejectingTx [] 1 (.other "connection lost"))
          ⟨"002_add.sql", "ALTER TABLE t ADD y int;"⟩).2 = some (.other "connection lost")
      ∧ (ApplyMigrationPG (rejectingTx [] 1 (.other "connection lost"))
          ⟨"003_other.sql", "ALTER TABLE t ADD y int;"⟩).2
        = (ApplyMigrationPG (rejectingTx [] 1 (.other "connection lost"))
          ⟨"002_add.sql", "ALTER TABLE t ADD y int;"⟩).2
      ∧ (MigratePG exampleFS (rejectingTx [] 3 (.other "connection lost")) "sql").2
        = (MigratePG exampleFS (rejectingTx [] 4 (.other "connection lost")) "sql").2 := by
  decide

/-- When the database rejects the script of a migration, or accepts it and
rejects its `INSERT`, with the error `e`, `ApplyMigrationPG` returns `e`
itself. -/
theorem ApplyMigrationPG_error (tx : Tx) (mig : Migration) (e : GoError)
    (h : tx.fail (tx.calls ++ [.script mig.Query]) = some e
      ∨ (tx.fail (tx.calls ++ [.script mig.Query]) = none
        ∧ tx.fail (tx.calls ++ [.script mig.Query, .insert mig.FileName mig.Query])
            = some e)) :
    (ApplyMigrationPG tx mig).2 = some e := by
  rcases h with h | ⟨h₁, h₂⟩
  · rw [ApplyMigrationPG_script_fails tx mig e h]
  · rw [ApplyMigrationPG_insert_fails tx mig e h₁ h₂]

/-- C8 as amended: when the first statement the database rejects while the
pending migrations are applied is the script (`s = 2k+1`) or the `INSERT`
(`s = 2k+2`) of `P[k]`, with the error `e`, `MigratePG` returns `e` itself;
so does `ApplyMigrationPG`, for every transaction and migration, at either
of its two failure points; and the error it returns for a rejected script is
the same value as the one it returns for a rejected `INSERT` with the same
`e`, whatever the two migrations are: the code adds nothing to `e`. -/
theorem MigratePG_returns_underlying_error (fs : FS) (tx : Tx) (sqlFolderPath : String)
    (R A : List Migration) (k s : Nat) (e : GoError)
    (hcreate : tx.fail (tx.calls ++ [.createTable]) = none)
    (hfolder : LoadMigrationsFromFolder fs sqlFolderPath = (R, none))
    (hdb : (LoadMigrationsFromDB (tx.Exec .createTable).1).2 = (A, none))
    (hlen : A.length ≤ R.length)
    (hq : ∀ i (hA : i < A.length) (hR : i < R.length), R[i].Query = A[i].Query)
    (hk : k < (R.drop A.length).length)
    (hs : s = 2 * k + 1 ∨ s = 2 * k + 2)
    (hok : ∀ n, 0 < n → n < s →
      tx.fail (tx.calls ++ .createTable :: .selectMigrations ::
        (applyStmts (R.drop A.length)).take n) = none)
    (hfail : tx.fail (tx.calls ++ .createTable :: .selectMigrations ::
        (applyStmts (R.drop A.length)).take s) = some e) :
    (MigratePG fs tx sqlFolderPath).2 = some e
      ∧ (∀ (tx₀ : Tx) (mig : Migration),
          (tx₀.fail (tx₀.calls ++ [.script mig.Query]) = some e
            ∨ (tx₀.fail (tx₀.calls ++ [.script mig.Query]) = none
              ∧ tx₀.fail (tx₀.calls ++ [.script mig.Query, .insert mig.FileName mig.Query])
                  = some e)) →
          (ApplyMigrationPG tx₀ mig).2 = some e)
      ∧ (∀ (tx₁ tx₂ : Tx) (mig₁ mig₂ : Migration),
          tx₁.fail (tx₁.calls ++ [.script mig₁.Query]) = some e →
          tx₂.fail (tx₂.calls ++ [.script mig₂.Query]) = none →
          tx₂.fail (tx₂.calls ++ [.script mig₂.Query, .insert mig₂.FileName mig₂.Query])
            = some e →
          (ApplyMigrationPG tx₁ mig₁).2 = (ApplyMigrationPG tx₂ mig₂).2) := by
  refine ⟨?_, fun tx₀ mig h => ApplyMigrationPG_error tx₀ mig e h, ?_⟩
  · have hM := MigratePG_after_loads fs tx sqlFolderPath R A hcreate hfolder hdb
    rw [ComputeUnappliedMigrations_eq_drop R A hlen hq] at hM
    simp only at hM
    rw [applyLoop_stops (R.drop A.length) _ s e (by omega) (by omega)] at hM
    · rw [hM]
    · intro n hn hn2
      have := hok n hn hn2
      simpa using this
    · simpa using hfail
  · intro tx₁ tx₂ mig₁ mig₂ h₁ h₂ h₃
    rw [ApplyMigrationPG_error tx₁ mig₁ e (Or.inl h₁),
      ApplyMigrationPG_error tx₂ mig₂ e (Or.inr ⟨h₂, h₃⟩)]

/-- Witness of the amended C8: on an empty ledger the database rejects the
`INSERT` of the first of the two pending migrations; `MigratePG` returns the
error of the database as it is. -/
theorem MigratePG_returns_underlying_error_witness :
    (MigratePG exampleFS (rejectingTx [] 4 (.other "connection lost")) "sql").2
      = some (.other "connection lost") :=
  (MigratePG_returns_underlying_error exampleFS (rejectingTx [] 4 (.other "connection lost"))
    "sql" exampleRequired [] 0 2 (.other "connection lost")
    rfl (by decide) (by decide) (by decide) (by intro i hA; simp at hA) (by decide)
    (by decide)
    (by
      intro n h0 h2
      have hn : n = 1 := by omega
      subst hn
      rfl)
    rfl).1

/-! ## LoadMigrationsFromFolder -/

/-- The function `HasSuffix` holds of the strings that end with the suffix. -/
theorem HasSuffix_iff (s suffix : String) :
    HasSuffix s suffix = true ↔ ∃ p : String, s = p ++ suffix := by
  unfold HasSuffix
  rw [List.isSuffixOf_iff_suffix]
  constructor
  · rintro ⟨t, ht⟩
    refine ⟨⟨t⟩, ?_⟩
    apply String.ext
    simp [← ht]
  · rintro ⟨p, rfl⟩
    exact ⟨p.data, by simp⟩

/-- When every `.sql` file of the listing can be read, the loop collects one
migration for each of them, in the order of the listing, and none for the
other entries. -/
theorem readLoop_entries (fs : FS) (sqlFolderPath : String)
    (entries : List (String × String)) (acc : List Migration)
    (hread : ∀ e ∈ entries, HasSuffix e.1 ".sql" = true →
      fs.ReadFile (fs.Join sqlFolderPath e.1) = .ok e.2) :
    readLoop fs sqlFolderPath (entries.map Prod.fst) acc
      = (acc ++ (entries.filter (fun e => HasSuffix e.1 ".sql")).map
            (fun e => (⟨e.1, e.2⟩ : Migration)), none) := by
  induction entries generalizing acc with
  | nil => simp [readLoop]
  | cons e es ih =>
    have ih1 := fun acc => ih acc (fun e he => hread e (List.mem_cons_of_mem _ he))
    by_cases hs : HasSuffix e.1 ".sql" = true
    · have hr := hread e (List.mem_cons_self e es) hs
      simp only [List.map_cons, readLoop, hs, if_true, hr, ih1, List.filter_cons]
      simp
    · have hf : HasSuffix e.1 ".sql" = false := by simpa using hs
      simp only [List.map_cons, readLoop, hf, Bool.false_eq_true, if_false, ih1,
        List.filter_cons]

/-- C10: over a directory listing with pairwise distinct names whose `.sql`
files can all be read, `LoadMigrationsFromFolder` returns no error and a
list in strictly ascending order of `FileName` that holds exactly one
migration (name, content) for each entry whose name ends in `.sql` and
nothing for any other entry. -/
theorem LoadMigrationsFromFolder_sorted_sql_files (fs : FS) (sqlFolderPath : String)
    (entries : List (String × String))
    (hnodup : (entries.map Prod.fst).Nodup)
    (hdir : fs.ReadDir sqlFolderPath = .ok (entries.map Prod.fst))
    (hread : ∀ e ∈ entries, HasSuffix e.1 ".sql" = true →
      fs.ReadFile (fs.Join sqlFolderPath e.1) = .ok e.2) :
    (LoadMigrationsFromFolder fs sqlFolderPath).2 = none
      ∧ (LoadMigrationsFromFolder fs sqlFolderPath).1.Pairwise
          (fun a b => a.FileName < b.FileName)
      ∧ (LoadMigrationsFromFolder fs sqlFolderPath).1.Perm
          ((entries.filter (fun e => HasSuffix e.1 ".sql")).map
            (fun e => (⟨e.1, e.2⟩ : Migration)))
      ∧ (∀ mig : Migration, mig ∈ (LoadMigrationsFromFolder fs sqlFolderPath).1 ↔
          (mig.FileName, mig.Query) ∈ entries ∧ ∃ p : String, mig.FileName = p ++ ".sql") := by
  have hL : LoadMigrationsFromFolder fs sqlFolderPath
      = (sortSlice (fun a b => stringLess a.FileName b.FileName)
          ((entries.filter (fun e => HasSuffix e.1 ".sql")).map
            (fun e => (⟨e.1, e.2⟩ : Migration))), none) := by
    unfold LoadMigrationsFromFolder
    rw [hdir]
    simp only [readLoop_entries fs sqlFolderPath entries [] hread, List.nil_append]
  have hperm := sortSlice_perm (fun a b : Migration => stringLess a.FileName b.FileName)
    ((entries.filter (fun e => HasSuffix e.1 ".sql")).map (fun e => (⟨e.1, e.2⟩ : Migration)))
  rw [hL]
  refine ⟨rfl, ?_, hperm, ?_⟩
  · apply sortSlice_strict _ Migration.FileName (fun a b => stringLess_iff _ _)
    have hsub : ((entries.filter (fun e => HasSuffix e.1 ".sql")).map Prod.fst).Sublist
        (entries.map Prod.fst) := (List.filter_sublist entries).map _
    have hmap : ((entries.filter (fun e => HasSuffix e.1 ".sql")).map
        (fun e => (⟨e.1, e.2⟩ : Migration))).map Migration.FileName
        = (entries.filter (fun e => HasSuffix e.1 ".sql")).map Prod.fst := by
      simp [List.map_map, Function.comp_def]
    rw [hmap]
    exact hnodup.sublist hsub
  · intro mig
    rw [hperm.mem_iff]
    simp only [List.mem_map, List.mem_filter]
    constructor
    · rintro ⟨e, ⟨he, hs⟩, rfl⟩
      exact ⟨he, (HasSuffix_iff _ _).mp hs⟩
    · rintro ⟨he, hs⟩
      exact ⟨(mig.FileName, mig.Query), ⟨he, (HasSuffix_iff _ _).mpr hs⟩, rfl⟩

/-- Witness of C10: a listing of three entries in no particular order, one of
which is not a `.sql` file. -/
theorem LoadMigrationsFromFolder_sorted_sql_files_witness :
    LoadMigrationsFromFolder exampleFS "sql" = (exampleRequired, none)
      ∧ (LoadMigrationsFromFolder exampleFS "sql").1.Pairwise
          (fun a b => a.FileName < b.FileName)
      ∧ (LoadMigrationsFromFolder exampleFS "sql").1.Perm
          [⟨"002_add.sql", "ALTER TABLE t ADD y int;"⟩,
           ⟨"001_init.sql", "CREATE TABLE t(x int);"⟩] :=
  have h := LoadMigrationsFromFolder_sorted_sql_files exampleFS "sql"
    [("002_add.sql", "ALTER TABLE t ADD y int;"), ("README.md", "# notes"),
     ("001_init.sql", "CREATE TABLE t(x int);")]
    (by decide) rfl
    (by
      intro e he hs
      simp only [List.mem_cons, List.mem_singleton, List.not_mem_nil, or_false] at he
      rcases he with rfl | rfl | rfl
      · rfl
      · exact absurd hs (by decide)
      · rfl)
  ⟨by decide, h.2.1, h.2.2.1⟩

/-! ## A second run of MigratePG -/

/-- When `ComputeUnappliedMigrations` succeeds, the applied list was not the
longer one, the loop found nothing and the rest of the required list is
returned. -/
theorem ComputeUnappliedMigrations_eq_none (R A : List Migration)
    (h : (ComputeUnappliedMigrations R A).2 = none) :
    A.length ≤ R.length ∧ compareLoop R A 0 = none
      ∧ ComputeUnappliedMigrations R A = (R.drop A.length, none) := by
  unfold ComputeUnappliedMigrations at h ⊢
  by_cases hlt : R.length < A.length
  · simp [hlt] at h
  · simp only [hlt, if_false] at h ⊢
    cases hc : compareLoop R A 0 with
    | some err => simp [hc] at h
    | none => exact ⟨by omega, rfl, rfl⟩

/-- When the loop finds nothing, the applied queries are the first required
queries. -/
theorem compareLoop_none_queries (R A : List Migration) (i : Nat)
    (h : compareLoop R A i = none) (hlen : A.length ≤ R.length) :
    A.map Migration.Query = (R.take A.length).map Migration.Query := by
  induction R generalizing A i with
  | nil =>
    cases A with
    | nil => rfl
    | cons a A => simp at hlen
  | cons r R ih =>
    cases A with
    | nil => rfl
    | cons a A =>
      by_cases hq : r.Query = a.Query
      · simp only [compareLoop, hq, ne_eq, not_true_eq_false, if_false] at h
        have := ih A (i + 1) h (by simpa using hlen)
        simp [hq, this]
      · simp [compareLoop, hq] at h

/-- When `MigratePG` succeeds on the required list `R`, the table creation
and the load of the ledger succeeded, the ledger `A` passed the comparison
and the transaction holds, after the rows it had, those of `R[len(A):]`. -/
theorem MigratePG_eq_none (fs : FS) (tx tx₁ : Tx) (sqlFolderPath : String)
    (R : List Migration)
    (hfolder : LoadMigrationsFromFolder fs sqlFolderPath = (R, none))
    (h : MigratePG fs tx sqlFolderPath = (tx₁, none)) :
    ∃ A, tx.fail (tx.calls ++ [.createTable]) = none
      ∧ (LoadMigrationsFromDB (tx.Exec .createTable).1).2 = (A, none)
      ∧ (ComputeUnappliedMigrations R A).2 = none
      ∧ tx₁ = { tx with
          calls := tx.calls ++ .createTable :: .selectMigrations ::
            applyStmts (R.drop A.length),
          rows := tx.rows ++ (R.drop A.length).map Row.ofMigration } := by
  cases hc : tx.fail (tx.calls ++ [.createTable]) with
  | some e => simp [MigratePG, Tx.Exec, hc] at h
  | none =>
    have hE : tx.Exec .createTable = ({ tx with calls := tx.calls ++ [.createTable] }, none) := by
      simp [Tx.Exec, hc]
    rcases hL : (LoadMigrationsFromDB (tx.Exec .createTable).1).2 with ⟨A, _ | e⟩
    · have hM := MigratePG_after_loads fs tx sqlFolderPath R A hc hfolder hL
      rcases hC : ComputeUnappliedMigrations R A with ⟨P, _ | err⟩
      · have hC2 : (ComputeUnappliedMigrations R A).2 = none := by rw [hC]
        have hP := (ComputeUnappliedMigrations_eq_none R A hC2).2.2
        rw [hP] at hM
        simp only at hM
        rw [h] at hM
        refine ⟨A, rfl, rfl, hC2, ?_⟩
        rw [applyLoop_eq_none _ _ _ hM.symm]
        simp
      · rw [hC] at hM
        simp only at hM
        rw [h] at hM
        simp at hM
    · exfalso
      rw [hE] at hL
      unfold MigratePG at h
      rw [hE] at h
      simp only [hfolder] at h
      rcases hL' : LoadMigrationsFromDB { tx with calls := tx.calls ++ [.createTable] }
        with ⟨txb, A', err'⟩
      rw [hL'] at hL h
      simp only [Prod.mk.injEq] at hL
      obtain ⟨_, rfl⟩ := hL
      simp at h

/-- Counterexample to C9: the folder holds `001_init.sql` and `002_add.sql`
(names distinct and ascending) and the ledger holds the first query under
the name `zzz_init.sql`. The first run succeeds and applies `002_add.sql`;
the ledger, read back in ascending order of `file_name`, now starts with
`002_add.sql`, so the second run fails with the "different content" error of
index 0. -/
theorem MigratePG_second_run_fails :
    LoadMigrationsFromFolder exampleFS "sql" = (exampleRequired, none)
      ∧ exampleRequired.Pairwise (fun a b => stringLess a.FileName b.FileName = true)
      ∧ (MigratePG exampleFS
          (acceptingTx [⟨"zzz_init.sql", some "CREATE TABLE t(x int);"⟩]) "sql").2 = none
      ∧ (MigratePG exampleFS
          (acceptingTx [⟨"zzz_init.sql", some "CREATE TABLE t(x int);"⟩]) "sql").1.rows
          = [⟨"zzz_init.sql", some "CREATE TABLE t(x int);"⟩,
             ⟨"002_add.sql", some "ALTER TABLE t ADD y int;"⟩]
      ∧ (MigratePG exampleFS
          (MigratePG exampleFS
            (acceptingTx [⟨"zzz_init.sql", some "CREATE TABLE t(x int);"⟩]) "sql").1 "sql").2
          = some (.Errorf differentContentFormat
              [.s "001_init.sql", .s "002_add.sql", .d 0,
               .s "001_init.sql", .s "002_add.sql",
               .s "CREATE TABLE t(x int);", .s "ALTER TABLE t ADD y int;"]) := by
  refine ⟨by decide, by decide, by decide, by decide, ?_⟩
  rfl

/-- When the table is created and the load of the ledger fails, `MigratePG`
returns the error of the load and has sent the `SELECT` at most. -/
theorem MigratePG_load_fails (fs : FS) (tx : Tx) (sqlFolderPath : String)
    (R A : List Migration) (err : GoError)
    (hcreate : tx.fail (tx.calls ++ [.createTable]) = none)
    (hfolder : LoadMigrationsFromFolder fs sqlFolderPath = (R, none))
    (hdb : (LoadMigrationsFromDB (tx.Exec .createTable).1).2 = (A, some err)) :
    MigratePG fs tx sqlFolderPath
      = ({ tx with calls := tx.calls ++ [.createTable, .selectMigrations] }, some err) := by
  have hE : tx.Exec .createTable = ({ tx with calls := tx.calls ++ [.createTable] }, none) := by
    simp [Tx.Exec, hcreate]
  rw [hE] at hdb
  have hL : LoadMigrationsFromDB { tx with calls := tx.calls ++ [.createTable] }
      = ({ tx with calls := tx.calls ++ [.createTable, .selectMigrations] }, A, some err) := by
    apply Prod.ext
    · rw [LoadMigrationsFromDB_fst]; simp
    · exact hdb
  unfold MigratePG
  rw [hE]
  simp only [hfolder, hL]

/-- Rows whose queries are those of a list of strings are the rows of
migrations with these queries. -/
theorem rows_of_queries (rows : List Row) (L : List String)
    (h : rows.map Row.query = L.map some) :
    ∃ A : List Migration, rows = A.map Row.ofMigration ∧ A.map Migration.Query = L := by
  induction rows generalizing L with
  | nil =>
    cases L with
    | nil => exact ⟨[], rfl, rfl⟩
    | cons q L => simp at h
  | cons row rows ih =>
    cases L with
    | nil => simp at h
    | cons q L =>
      simp only [List.map_cons, List.cons.injEq] at h
      obtain ⟨A, hA, hAq⟩ := ih L h.2
      obtain ⟨name, query⟩ := row
      simp only at h
      refine ⟨⟨name, q⟩ :: A, ?_, ?_⟩
      · simp [Row.ofMigration, h.1, hA]
      · simp [hAq]

/-- When the ledger holds as many rows as there are required migrations,
`MigratePG` runs no migration script and adds no row, whatever else happens:
it sends the table creation and at most the `SELECT`, and when it succeeds it
has computed an empty list of migrations to apply. -/
theorem MigratePG_full_ledger (fs : FS) (tx : Tx) (sqlFolderPath : String)
    (R : List Migration)
    (hfolder : LoadMigrationsFromFolder fs sqlFolderPath = (R, none))
    (hlen : tx.rows.length = R.length) :
    (MigratePG fs tx sqlFolderPath).1.rows = tx.rows
      ∧ ((MigratePG fs tx sqlFolderPath).1.calls = tx.calls ++ [.createTable]
        ∨ (MigratePG fs tx sqlFolderPath).1.calls
            = tx.calls ++ [.createTable, .selectMigrations])
      ∧ ((MigratePG fs tx sqlFolderPath).2 = none →
          ComputeUnappliedMigrations R (LoadMigrationsFromDB (tx.Exec .createTable).1).2.1
            = ([], none)) := by
  cases hc : tx.fail (tx.calls ++ [.createTable]) with
  | some e => simp [MigratePG, Tx.Exec, hc]
  | none =>
    have hE : tx.Exec .createTable = ({ tx with calls := tx.calls ++ [.createTable] }, none) := by
      simp [Tx.Exec, hc]
    rcases hL : (LoadMigrationsFromDB (tx.Exec .createTable).1).2 with ⟨A, _ | err⟩
    · have hM := MigratePG_after_loads fs tx sqlFolderPath R A hc hfolder hL
      have hL0 := hL
      rw [hE] at hL0
      have hA := (LoadMigrationsFromDB_eq_none _ A hL0).2
      simp only at hA
      have hAlen : A.length = R.length := by
        have := (sortSlice_perm (fun a b : Row => tx.less a.file_name b.file_name)
          tx.rows).length_eq
        rw [hA] at this
        simp only [List.length_map] at this
        omega
      rcases hC : ComputeUnappliedMigrations R A with ⟨P, _ | err⟩
      · have hC2 : (ComputeUnappliedMigrations R A).2 = none := by rw [hC]
        have hP := (ComputeUnappliedMigrations_eq_none R A hC2).2.2
        rw [hAlen, List.drop_length] at hP
        rw [hP] at hM
        simp only [applyLoop] at hM
        refine ⟨by rw [hM], Or.inr (by rw [hM]), fun _ => hC.symm.trans hP⟩
      · rw [hC] at hM
        simp only at hM
        refine ⟨by rw [hM], Or.inr (by rw [hM]), fun h => ?_⟩
        rw [hM] at h
        simp at h
    · have hM := MigratePG_load_fails fs tx sqlFolderPath R A err hc hfolder hL
      refine ⟨by rw [hM], Or.inr (by rw [hM]), fun h => ?_⟩
      rw [hM] at h
      simp at h

/-- When the ledger holds as many rows as there are required migrations,
`MigratePG` succeeds exactly when the database accepts the table creation
and the `SELECT` and the rows, read in the order of the database, hold the
required queries position by position. -/
theorem MigratePG_full_ledger_iff (fs : FS) (tx : Tx) (sqlFolderPath : String)
    (R : List Migration)
    (hfolder : LoadMigrationsFromFolder fs sqlFolderPath = (R, none))
    (hlen : tx.rows.length = R.length) :
    (MigratePG fs tx sqlFolderPath).2 = none ↔
      tx.fail (tx.calls ++ [.createTable]) = none
        ∧ tx.fail (tx.calls ++ [.createTable, .selectMigrations]) = none
        ∧ (sortSlice (fun a b => tx.less a.file_name b.file_name) tx.rows).map Row.query
            = R.map (fun mig => some mig.Query) := by
  constructor
  · intro h
    obtain ⟨A, hc, hdb, hC, -⟩ := MigratePG_eq_none fs tx (MigratePG fs tx sqlFolderPath).1
      sqlFolderPath R hfolder (Prod.ext rfl h)
    have hE : tx.Exec .createTable = ({ tx with calls := tx.calls ++ [.createTable] }, none) := by
      simp [Tx.Exec, hc]
    rw [hE] at hdb
    obtain ⟨hsel, hA⟩ := LoadMigrationsFromDB_eq_none _ A hdb
    simp only at hA
    have hAlen : A.length = R.length := by
      have := (sortSlice_perm (fun a b : Row => tx.less a.file_name b.file_name)
        tx.rows).length_eq
      rw [hA] at this
      simp only [List.length_map] at this
      omega
    obtain ⟨hle, hloop, -⟩ := ComputeUnappliedMigrations_eq_none R A hC
    have hq := compareLoop_none_queries R A 0 hloop hle
    rw [hAlen, List.take_length] at hq
    refine ⟨hc, by simpa using hsel, ?_⟩
    rw [hA]
    have : R.map (fun mig => some mig.Query) = (R.map Migration.Query).map some := by
      simp [List.map_map, Function.comp_def]
    rw [this, ← hq]
    simp [List.map_map, Function.comp_def, Row.ofMigration]
  · rintro ⟨hc, hsel, hrows⟩
    have hrows' : (sortSlice (fun a b : Row => tx.less a.file_name b.file_name) tx.rows).map
        Row.query = (R.map Migration.Query).map some := by
      rw [hrows]; simp [List.map_map, Function.comp_def]
    obtain ⟨A, hA, hAq⟩ := rows_of_queries _ _ hrows'
    have hE : tx.Exec .createTable = ({ tx with calls := tx.calls ++ [.createTable] }, none) := by
      simp [Tx.Exec, hc]
    have hdb : (LoadMigrationsFromDB (tx.Exec .createTable).1).2 = (A, none) := by
      rw [hE]
      apply LoadMigrationsFromDB_of_rows
      · simpa using hsel
      · exact hA
    have hAlen : A.length = R.length := by
      have := congrArg List.length hAq
      simpa using this
    have hC : ComputeUnappliedMigrations R A = ([], none) := by
      have hnone : compareLoop R A 0 = none :=
        (compareLoop_isNone_congr R A R 0 hAq).mpr
          (compareLoop_eq_none R R 0 (fun _ _ _ => rfl))
      unfold ComputeUnappliedMigrations
      rw [hAlen, if_neg (lt_irrefl _), hnone]
      simp
    have hM := MigratePG_after_loads fs tx sqlFolderPath R A hc hfolder hdb
    rw [hC] at hM
    simp only [applyLoop] at hM
    rw [hM]

/-- C9 as amended: after a first `MigratePG` run that succeeded, a second run
on the same folder and on the ledger the first one left runs no migration
script and adds no row, whatever the names in the ledger and whatever the
database answers: it sends the table creation and at most the `SELECT`. It
succeeds exactly when the database accepts these two statements and the
ledger, read back in the order of the database, holds the queries of `R`
position by position, and then the list it computes to apply is empty. That
is so in particular when, in the order of the database, no migration the
first run applied comes before an earlier one of them or before a row the
ledger held at the start. -/
theorem MigratePG_second_run (fs : FS) (tx tx₁ : Tx) (sqlFolderPath : String)
    (R : List Migration)
    (hfolder : LoadMigrationsFromFolder fs sqlFolderPath = (R, none))
    (hfirst : MigratePG fs tx sqlFolderPath = (tx₁, none)) :
    (MigratePG fs tx₁ sqlFolderPath).1.rows = tx₁.rows
      ∧ scriptsOf (MigratePG fs tx₁ sqlFolderPath).1.calls = scriptsOf tx₁.calls
      ∧ ((MigratePG fs tx₁ sqlFolderPath).1.calls = tx₁.calls ++ [.createTable]
        ∨ (MigratePG fs tx₁ sqlFolderPath).1.calls
            = tx₁.calls ++ [.createTable, .selectMigrations])
      ∧ ((MigratePG fs tx₁ sqlFolderPath).2 = none ↔
          tx₁.fail (tx₁.calls ++ [.createTable]) = none
            ∧ tx₁.fail (tx₁.calls ++ [.createTable, .selectMigrations]) = none
            ∧ (sortSlice (fun a b => tx₁.less a.file_name b.file_name) tx₁.rows).map Row.query
                = R.map (fun mig => some mig.Query))
      ∧ ((MigratePG fs tx₁ sqlFolderPath).2 = none →
          ComputeUnappliedMigrations R (LoadMigrationsFromDB (tx₁.Exec .createTable).1).2.1
            = ([], none))
      ∧ (tx₁.fail (tx₁.calls ++ [.createTable]) = none →
          tx₁.fail (tx₁.calls ++ [.createTable, .selectMigrations]) = none →
          (R.drop tx.rows.length).Pairwise
            (fun a b => tx.less b.FileName a.FileName = false) →
          (∀ row ∈ tx.rows, ∀ mig ∈ R.drop tx.rows.length,
            tx.less mig.FileName row.file_name = false) →
          (MigratePG fs tx₁ sqlFolderPath).2 = none) := by
  obtain ⟨A, hc, hdb, hC, htx₁⟩ := MigratePG_eq_none fs tx tx₁ sqlFolderPath R hfolder hfirst
  have hE : tx.Exec .createTable = ({ tx with calls := tx.calls ++ [.createTable] }, none) := by
    simp [Tx.Exec, hc]
  rw [hE] at hdb
  have hA := (LoadMigrationsFromDB_eq_none _ A hdb).2
  simp only at hA
  obtain ⟨hlen, hloop, -⟩ := ComputeUnappliedMigrations_eq_none R A hC
  have hAlen : A.length = tx.rows.length := by
    have := (sortSlice_perm (fun a b : Row => tx.less a.file_name b.file_name) tx.rows).length_eq
    rw [hA] at this
    simpa using this
  have hrows₁ : tx₁.rows = tx.rows ++ (R.drop A.length).map Row.ofMigration := by rw [htx₁]
  have hless₁ : tx₁.less = tx.less := by rw [htx₁]
  have hfull : tx₁.rows.length = R.length := by
    rw [hrows₁]
    simp
    omega
  obtain ⟨h₁, h₂, h₃⟩ := MigratePG_full_ledger fs tx₁ sqlFolderPath R hfolder hfull
  have hiff := MigratePG_full_ledger_iff fs tx₁ sqlFolderPath R hfolder hfull
  refine ⟨h₁, ?_, h₂, hiff, h₃, ?_⟩
  · rcases h₂ with h | h <;> rw [h, scriptsOf_append] <;> simp [scriptsOf]
  · intro hcreate hselect happlied hnames
    rw [← hAlen] at happlied hnames
    refine hiff.mpr ⟨hcreate, hselect, ?_⟩
    have hsort : sortSlice (fun a b : Row => tx₁.less a.file_name b.file_name) tx₁.rows
        = (A ++ R.drop A.length).map Row.ofMigration := by
      rw [hrows₁, hless₁, sortSlice_append, hA, List.map_append]
      · rw [List.pairwise_map]
        exact happlied
      · intro a ha b hb
        obtain ⟨m, hm, rfl⟩ := List.mem_map.mp hb
        exact hnames a ha m hm
    have hqueries : (A ++ R.drop A.length).map Migration.Query = R.map Migration.Query := by
      rw [List.map_append, compareLoop_none_queries R A 0 hloop hlen, ← List.map_append,
        List.take_append_drop]
    rw [hsort]
    have : R.map (fun mig => some mig.Query) = (R.map Migration.Query).map some := by
      simp [List.map_map, Function.comp_def]
    rw [this, ← hqueries]
    simp [List.map_map, Function.comp_def, Row.ofMigration]

/-- Witness of the amended C9: two runs on the example folder, starting from
a ledger that holds the first migration under its own name; the second run
succeeds, runs no script beyond the one of the first run and adds no row. -/
theorem MigratePG_second_run_witness :
    (MigratePG exampleFS
        (MigratePG exampleFS
          (acceptingTx [⟨"001_init.sql", some "CREATE TABLE t(x int);"⟩]) "sql").1 "sql").2
        = none
      ∧ scriptsOf (MigratePG exampleFS
          (MigratePG exampleFS
            (acceptingTx [⟨"001_init.sql", some "CREATE TABLE t(x int);"⟩]) "sql").1
          "sql").1.calls
        = ["ALTER TABLE t ADD y int;"]
      ∧ (MigratePG exampleFS
          (MigratePG exampleFS
            (acceptingTx [⟨"001_init.sql", some "CREATE TABLE t(x int);"⟩]) "sql").1
          "sql").1.rows
        = [⟨"001_init.sql", some "CREATE TABLE t(x int);"⟩,
           ⟨"002_add.sql", some "ALTER TABLE t ADD y int;"⟩] :=
  have h := MigratePG_second_run exampleFS
    (acceptingTx [⟨"001_init.sql", some "CREATE TABLE t(x int);"⟩])
    (MigratePG exampleFS
      (acceptingTx [⟨"001_init.sql", some "CREATE TABLE t(x int);"⟩]) "sql").1
    "sql" exampleRequired (by decide) (Prod.ext rfl (by decide))
  ⟨h.2.2.2.2.2 rfl rfl (by decide) (by decide), h.2.1, h.1⟩

end Smig
